import Mathlib

/-!
Verification of the deepda variational assimilation core against its
natural-language specification.

The development shallowly embeds the Python sources:
* `src/deepda/variational.py` (`apply_3DVar`, `apply_4DVar`), and
* `src/deepda/builder.py` (`CaseBuilder` setters, `check_covariance_matrix`).

Torch tensors are modelled as a shape list (`List ℕ`) together with the
row-major flattened data (`List ℚ`); exact rational arithmetic stands in for
floating point.  External library components that the source merely calls —
the user-supplied forward model `M`, the observation operator `H`,
`torch.linalg.solve`, and the autograd + Adam engine
(`loss.backward()`, `torch.norm(new_x0.grad)`, `trainer.step()`) — are taken
as opaque function parameters, exactly as they are opaque callables to the
Python code under analysis.
-/

namespace DeepDA

/-- Model of a `torch.Tensor`: a shape and the row-major flattened data.
`shape` is the list of dimension sizes, `data` the flattened entries. -/
structure Tensor where
  shape : List ℕ
  data : List ℚ
deriving DecidableEq

/-- `t.ndim` — number of dimensions. -/
def Tensor.ndim (t : Tensor) : ℕ := t.shape.length

/-- `t.size(k)` — size of dimension `k` (0 when out of range; the Python call
raises there, and theorems about such calls carry dimension hypotheses). -/
def Tensor.size (t : Tensor) (k : ℕ) : ℕ := t.shape.getD k 0

/-- `t.numel()` — total number of entries demanded by the shape. -/
def Tensor.numel (t : Tensor) : ℕ := t.shape.prod

/-- A tensor is well formed when its data has exactly the entries the shape
demands. -/
def Tensor.WF (t : Tensor) : Prop := t.data.length = t.numel

/-- `t.ravel()` — the flattened data (shape dropped). -/
def Tensor.ravel (t : Tensor) : List ℚ := t.data

/-- Number of scalar entries in one slice along dimension 0. -/
def Tensor.rowNumel (t : Tensor) : ℕ := t.shape.tail.prod

/-- `t[i]` — indexing along dimension 0: the `i`-th slice, with the leading
dimension removed. -/
def Tensor.index0 (t : Tensor) (i : ℕ) : Tensor :=
  ⟨t.shape.tail, (t.data.drop (i * t.rowNumel)).take t.rowNumel⟩

/-- Python slice `t[-k:]` along dimension 0.  For `k = 0` this is `t[0:]`,
the whole tensor (Python's `-0` is `0`); otherwise it keeps the trailing
`min k (t.size 0)` slices. -/
def Tensor.sliceLast (t : Tensor) (k : ℕ) : Tensor :=
  if k = 0 then t
  else
    let m := min k (t.size 0)
    ⟨m :: t.shape.tail, (t.data.drop ((t.size 0 - m) * t.rowNumel)).take (m * t.rowNumel)⟩

/-- `t.unsqueeze(0)` — prepend a dimension of size 1. -/
def Tensor.unsqueeze0 (t : Tensor) : Tensor := ⟨1 :: t.shape, t.data⟩

/-- `t.reshape_as(r)` — same data, the shape of `r` (the source only calls it
with matching element counts). -/
def Tensor.reshapeAs (t r : Tensor) : Tensor := ⟨r.shape, t.data⟩

/-- Elementwise subtraction of two flat (raveled) vectors, as produced by
`a - b` on same-shape tensors. -/
def vsub (a b : List ℚ) : List ℚ := List.zipWith (fun x y => x - y) a b

/-- `a @ b` on two flat vectors — the dot product. -/
def dot (a b : List ℚ) : ℚ := (List.zipWith (fun x y => x * y) a b).sum

/-! ## Builder layer (`src/deepda/builder.py`) -/

/-- A dynamically typed Python value, as far as the builder's `isinstance`
checks inspect it. -/
inductive PyVal
  | int (n : ℤ)
  | bool (b : Bool)
  | float (q : ℚ)
  | str (s : String)
  | pynone
deriving DecidableEq

/-- Modelled from the spec: the `Parameters` record lives in
`deepda/executor.py`, which is not among the given sources; the spec (§3)
lists its fields.  Only the scalar configuration fields touched by the
claims are carried here. -/
structure Parameters where
  gap : ℤ
  max_iterations : ℤ
  learning_rate : ℚ
  logging : Bool
deriving DecidableEq

/-- Python's `isinstance(v, int)` — `bool` is a subclass of `int`. -/
def PyVal.isInt : PyVal → Bool
  | .int _ => true
  | .bool _ => true
  | _ => false

/-- The integer value of an int-like Python value (`True == 1`). -/
def PyVal.toInt : PyVal → ℤ
  | .int n => n
  | .bool b => if b then 1 else 0
  | _ => 0

/-- The rational value of a numeric Python value. -/
def PyVal.toRat : PyVal → ℚ
  | .int n => (n : ℚ)
  | .bool b => if b then 1 else 0
  | .float q => q
  | _ => 0

/-- `CaseBuilder.set_gap` (builder.py lines 159-163): only
`isinstance(gap, int)` is checked; the value itself is stored unvalidated. -/
def set_gap (p : Parameters) (v : PyVal) : Except String Parameters :=
  if v.isInt then .ok { p with gap := v.toInt }
  else .error "gap must be an integer"

/-- `CaseBuilder.set_max_iterations` (builder.py lines 197-204): only
`isinstance(max_iterations, int)` is checked. -/
def set_max_iterations (p : Parameters) (v : PyVal) : Except String Parameters :=
  if v.isInt then .ok { p with max_iterations := v.toInt }
  else .error "max_iterations must be an integer"

/-- `CaseBuilder.set_learning_rate` (builder.py lines 206-213): only
`isinstance(learning_rate, (int, float))` is checked. -/
def set_learning_rate (p : Parameters) (v : PyVal) : Except String Parameters :=
  match v with
  | .int n => .ok { p with learning_rate := (n : ℚ) }
  | .bool b => .ok { p with learning_rate := if b then 1 else 0 }
  | .float q => .ok { p with learning_rate := q }
  | _ => .error "learning_rate must be an integer or a floating point number"

/-- `CaseBuilder.set_logging` (builder.py lines 215-219): only
`isinstance(logging, bool)` is checked. -/
def set_logging (p : Parameters) (v : PyVal) : Except String Parameters :=
  match v with
  | .bool b => .ok { p with logging := b }
  | _ => .error "logging must be a bool"

/-! ## `check_covariance_matrix` (builder.py lines 81-94) -/

/-- `torch.allclose` default absolute tolerance. -/
def atol : ℚ := 1 / 10 ^ 8

/-- `torch.allclose` default relative tolerance. -/
def rtol : ℚ := 1 / 10 ^ 5

/-- Executable absolute value on ℚ (the lattice `|·|` does not evaluate by
kernel reduction). -/
def absQ (q : ℚ) : ℚ := if q < 0 then -q else q

/-- Entry `(i, j)` of a 2-D tensor (row-major). -/
def Tensor.entry2 (t : Tensor) (i j : ℕ) : ℚ := t.data.getD (i * t.size 1 + j) 0

/-- `torch.allclose(cov, cov.T)` on an `n × n` tensor: elementwise
`|cov[i,j] - cov.T[i,j]| ≤ atol + rtol * |cov.T[i,j]|`. -/
def allcloseTransB (t : Tensor) : Bool :=
  (List.range (t.size 0)).all fun i =>
    (List.range (t.size 0)).all fun j =>
      decide (absQ (t.entry2 i j - t.entry2 j i) ≤ atol + rtol * absQ (t.entry2 j i))

/-- Laplace expansion along the first row, with the recursion depth made
structural through a fuel argument (the fuel is the row count, so it never
runs out on the actual calls). -/
def detN : ℕ → List (List ℚ) → ℚ
  | 0, _ => 1
  | _ + 1, [] => 1
  | n + 1, r :: rows =>
      ((List.range r.length).map fun j =>
        (-1) ^ j * r.getD j 0 * detN n (rows.map fun row => row.eraseIdx j)).sum

/-- Executable determinant of a square matrix given as a list of rows.
(`Matrix.det` itself does not evaluate by kernel reduction; `detL_eq_det`
below identifies the two on square inputs.) -/
def detL (rows : List (List ℚ)) : ℚ := detN rows.length rows

/-- The rows of a 2-D tensor, as lists of length `t.size 1`. -/
def Tensor.toRows (t : Tensor) : List (List ℚ) :=
  (List.range (t.size 0)).map fun i => (t.index0 i).data

/-- The `n × n` rational matrix read off a 2-D tensor. -/
def Tensor.toMat (t : Tensor) (n : ℕ) : Matrix (Fin n) (Fin n) ℚ :=
  Matrix.of fun i j => t.entry2 i j

/-- `CaseBuilder.check_covariance_matrix` (builder.py lines 81-94).
The three guards are translated in order; `torch.linalg.matrix_rank(A) != size`
on an exact square matrix is equivalent to `det A = 0` (rank `n` iff
invertible iff nonzero determinant), which is how the rank test is
embedded, via the executable determinant `detL`. -/
def check_covariance_matrix (t : Tensor) : Except String Unit :=
  if t.ndim ≠ 2 ∨ t.size 0 ≠ t.size 1 then
    .error "Covariance matrix should be a 2D square matrix."
  else if allcloseTransB t = false then
    .error "Covariance matrix should be a symmetric matrix."
  else if detL t.toRows = 0 then
    .error "The input matrix is a singular matrix."
  else .ok ()

/-! ## Variational solvers (`src/deepda/variational.py`)

The user-supplied observation operator `H` is modelled on raveled data
(`List ℚ → List ℚ`; the source ravels its result at every use), the forward
model `M` as `Tensor → List ℚ → Tensor` (state, time grid), and
`torch.linalg.solve` as an opaque `solve : Tensor → List ℚ → List ℚ`
(matrix as tensor, right-hand side raveled).  The reverse-mode
differentiation and Adam step
(`loss.backward(); torch.norm(new_x0.grad); trainer.step()`) are one opaque
`engine : σ → Tensor → ℚ → ℚ × Tensor × σ`: from the optimizer state, the
current candidate and the scalar loss that `backward` is called on, it
produces the recorded gradient norm, the stepped candidate and the next
optimizer state (`σ` carries Adam's moments; the learning rate is part of
`engine`). -/

/-- One value of the `intermediate_results` dictionary: a list of scalars
or a list of per-iteration state snapshots. -/
inductive DiagVal
  | nums (l : List ℚ)
  | states (l : List Tensor)
deriving DecidableEq

/-- Length of a recorded diagnostics sequence. -/
def DiagVal.len : DiagVal → ℕ
  | .nums l => l.length
  | .states l => l.length

/-- `xb.unsqueeze(0) if xb.ndim == 1 else xb` (variational.py lines 20-21). -/
def inner3D (x : Tensor) : Tensor := if x.ndim = 1 then x.unsqueeze0 else x

/-- The per-iteration 3D-Var cost (variational.py lines 35-43): for each
leading-dimension index `i`, quadratic forms of the background misfit
against `B` and the observation misfit against `R`, both through the
matrix solve. -/
def loss3DVar (H : List ℚ → List ℚ) (solve : Tensor → List ℚ → List ℚ)
    (B R xbI yI x0 : Tensor) : ℚ :=
  ((List.range (xbI.size 0)).map fun i =>
    let one_x0 := (x0.index0 i).ravel
    let x0_minus_xb := vsub one_x0 (xbI.index0 i).ravel
    let y_minus_H_x0 := vsub (yI.index0 i).ravel (H one_x0)
    dot x0_minus_xb (solve B x0_minus_xb) + dot y_minus_H_x0 (solve R y_minus_H_x0)).sum

/-- Loop state of `apply_3DVar`: optimizer state, candidate `new_x0`, the
three diagnostics lists, and `latest_x0` (unassigned before the first
iteration). -/
structure Iter3 (σ : Type) where
  os : σ
  cand : Tensor
  J : List ℚ
  gnorm : List ℚ
  bg : List Tensor
  latest : Option Tensor

/-- One iteration of the `apply_3DVar` loop (variational.py lines 33-54):
compute the loss at the current candidate, backward/record/step through the
engine, then snapshot the updated candidate reshaped as `xb`. -/
def step3D {σ : Type} (H : List ℚ → List ℚ) (solve : Tensor → List ℚ → List ℚ)
    (B R xb y : Tensor) (engine : σ → Tensor → ℚ → ℚ × Tensor × σ)
    (st : Iter3 σ) : Iter3 σ :=
  let J := loss3DVar H solve B R (inner3D xb) (inner3D y) st.cand
  let e := engine st.os st.cand J
  let lx := Tensor.reshapeAs e.2.1 xb
  ⟨e.2.2, e.2.1, st.J ++ [J], st.gnorm ++ [e.1], st.bg ++ [lx], some lx⟩

/-- The `apply_3DVar` loop state after `n` iterations (`new_x0` starts as
an independent copy of `xb_inner`). -/
def iter3 {σ : Type} (H : List ℚ → List ℚ) (solve : Tensor → List ℚ → List ℚ)
    (B R xb y : Tensor) (engine : σ → Tensor → ℚ → ℚ × Tensor × σ) (s0 : σ)
    (n : ℕ) : Iter3 σ :=
  (step3D H solve B R xb y engine)^[n] ⟨s0, inner3D xb, [], [], [], none⟩

/-- `apply_3DVar` (variational.py lines 9-56).  The loop runs
`max_iterations` times (`range` of a non-positive int is empty); returning
`latest_x0` when the loop never ran raises Python's unbound-local error,
modelled as `.error`.  The `logging` flag only prints and does not enter
any result. -/
def apply_3DVar {σ : Type} (H : List ℚ → List ℚ) (solve : Tensor → List ℚ → List ℚ)
    (B R xb y : Tensor) (max_iterations : ℤ) (logging : Bool)
    (engine : σ → Tensor → ℚ → ℚ × Tensor × σ) (s0 : σ) :
    Except String (Tensor × List (String × DiagVal)) :=
  let fin := iter3 H solve B R xb y engine s0 max_iterations.toNat
  match fin.latest with
  | none => .error "UnboundLocalError: latest_x0"
  | some lx => .ok (lx,
      [("J", .nums fin.J), ("J_grad_norm", .nums fin.gnorm),
       ("background_states", .states fin.bg)])

/-- The inner `Jo` quadratic form of `apply_4DVar` (variational.py lines
92-94). -/
def JoQ (H : List ℚ → List ℚ) (solve : Tensor → List ℚ → List ℚ)
    (R : Tensor) (xp y : List ℚ) : ℚ :=
  let y_minus_H_xp := vsub y (H xp)
  dot y_minus_H_xp (solve R y_minus_H_xp)

/-- The `Jb` cost of `apply_4DVar` (variational.py lines 84-90). -/
def Jb4D (H : List ℚ → List ℚ) (solve : Tensor → List ℚ → List ℚ)
    (B R : Tensor) (x0 xbr y0 : List ℚ) : ℚ :=
  let x0_minus_xb := vsub x0 xbr
  let y_minus_H_x0 := vsub y0 (H x0)
  dot x0_minus_xb (solve B x0_minus_xb) + dot y_minus_H_x0 (solve R y_minus_H_x0)

/-- `torch.linspace(a, b, steps)`: `steps` evenly spaced points from `a`
to `b` inclusive. -/
def linspaceQ (a b : ℚ) (steps : ℕ) : List ℚ :=
  if steps ≤ 1 then List.replicate steps a
  else (List.range steps).map fun i => a + (b - a) * i / ((steps : ℚ) - 1)

/-- What one pass of the `apply_4DVar` observation-segment loop produces:
the accumulated `loss_Jo`, the number of accumulated misfit terms, the
tensors handed to `M` (one per segment) and the time grids handed to `M`. -/
structure Sweep where
  loss : ℚ
  nTerms : ℕ
  mInputs : List Tensor
  grids : List (List ℚ)
deriving DecidableEq

/-- The observation-segment loop of `apply_4DVar` (variational.py lines
100-113), one iteration of the outer optimizer loop.  Arguments after `gap`:
the remaining observation times `time_obs[1:]`, the running observation
index `iobs`, `current_time`, and the running state `xp`.  Per segment:
build the `gap + 1`-point grid, call `M`, read `sequence_length` off
dimension 1 of the result, re-anchor `xp` to the trailing
`sequence_length` slices, and accumulate one misfit term per
`i < sequence_length` against `y[iobs, i]`. -/
def sweep4D (M : Tensor → List ℚ → Tensor) (H : List ℚ → List ℚ)
    (solve : Tensor → List ℚ → List ℚ) (R y : Tensor) (gap : ℕ) :
    List ℚ → ℕ → ℚ → Tensor → Sweep
  | [], _, _, _ => ⟨0, 0, [], []⟩
  | tNext :: rest, iobs, current_time, xp =>
      let time_fw := linspaceQ current_time tNext (gap + 1)
      let xf := M xp time_fw
      let s := xf.size 1
      let xp1 := xf.sliceLast s
      let segLoss := ((List.range s).map fun i =>
        JoQ H solve R (xp1.index0 i).ravel ((y.index0 iobs).index0 i).ravel).sum
      let restS := sweep4D M H solve R y gap rest (iobs + 1) tNext xp1
      ⟨segLoss + restS.loss, s + restS.nTerms, xp :: restS.mInputs, time_fw :: restS.grids⟩

/-- The re-anchoring `apply_4DVar` performs after each observation segment
(variational.py lines 108-110): call `M`, read `sequence_length` off
dimension 1 of the result, and slice the trailing `sequence_length`
entries. -/
def chainNext (M : Tensor → List ℚ → Tensor) (x : Tensor) (g : List ℚ) : Tensor :=
  (M x g).sliceLast ((M x g).size 1)

/-- Modelled from the spec's words (§4.2): "for each pair of consecutive
observation times, build an evenly spaced time grid of `gap + 1` points
spanning them" — the list of those grids, one per consecutive pair. -/
def specGrids (gap : ℕ) : ℚ → List ℚ → List (List ℚ)
  | _, [] => []
  | ct, t :: rest => linspaceQ ct t (gap + 1) :: specGrids gap t rest

/-- Loop state of `apply_4DVar`. -/
structure Iter4 (σ : Type) where
  os : σ
  cand : Tensor
  Jb : List ℚ
  Jo : List ℚ
  gnorm : List ℚ
  bg : List Tensor
  latest : Option Tensor

/-- One iteration of the `apply_4DVar` loop (variational.py lines 98-127):
`Jb` at the candidate against `y[0]`, the segment sweep for `Jo`,
backward on `total_loss = loss_Jb + loss_Jo` through the engine, then
snapshot the updated candidate. -/
def step4D {σ : Type} (time_obs : List ℚ) (gap : ℕ)
    (M : Tensor → List ℚ → Tensor) (H : List ℚ → List ℚ)
    (solve : Tensor → List ℚ → List ℚ) (B R xb y : Tensor)
    (engine : σ → Tensor → ℚ → ℚ × Tensor × σ) (st : Iter4 σ) : Iter4 σ :=
  let jb := Jb4D H solve B R st.cand.ravel xb.ravel (y.index0 0).ravel
  let sw := sweep4D M H solve R y gap (time_obs.drop 1) 1 (time_obs.getD 0 0) st.cand
  let e := engine st.os st.cand (jb + sw.loss)
  ⟨e.2.2, e.2.1, st.Jb ++ [jb], st.Jo ++ [sw.loss], st.gnorm ++ [e.1],
    st.bg ++ [e.2.1], some e.2.1⟩

/-- The `apply_4DVar` loop state after `n` iterations (`new_x0` starts as
an independent copy of `xb`). -/
def iter4 {σ : Type} (time_obs : List ℚ) (gap : ℕ)
    (M : Tensor → List ℚ → Tensor) (H : List ℚ → List ℚ)
    (solve : Tensor → List ℚ → List ℚ) (B R xb y : Tensor)
    (engine : σ → Tensor → ℚ → ℚ × Tensor × σ) (s0 : σ) (n : ℕ) : Iter4 σ :=
  (step4D time_obs gap M H solve B R xb y engine)^[n] ⟨s0, xb, [], [], [], [], none⟩

/-- `apply_4DVar` (variational.py lines 59-129); same conventions as
`apply_3DVar`. -/
def apply_4DVar {σ : Type} (time_obs : List ℚ) (gap : ℕ)
    (M : Tensor → List ℚ → Tensor) (H : List ℚ → List ℚ)
    (solve : Tensor → List ℚ → List ℚ) (B R xb y : Tensor)
    (max_iterations : ℤ) (logging : Bool)
    (engine : σ → Tensor → ℚ → ℚ × Tensor × σ) (s0 : σ) :
    Except String (Tensor × List (String × DiagVal)) :=
  let fin := iter4 time_obs gap M H solve B R xb y engine s0 max_iterations.toNat
  match fin.latest with
  | none => .error "UnboundLocalError: latest_x0"
  | some lx => .ok (lx,
      [("Jb", .nums fin.Jb), ("Jo", .nums fin.Jo),
       ("J_grad_norm", .nums fin.gnorm), ("background_states", .states fin.bg)])

/-! ## Storage model of the solver loops

Tensor-object identity (which tensors share storage) is invisible to the
value-level embedding above, so the allocation and in-place-mutation
skeleton that `apply_3DVar` and `apply_4DVar` share verbatim is modelled
once, against an explicit heap:

* `new_x0 = torch.nn.Parameter(xb.detach().clone())` — allocate a fresh
  cell holding a copy of `xb`'s value;
* each iteration: `trainer.step()` mutates `new_x0`'s cell in place, then
  `latest_x0 = new_x0.detach().clone()` (in 3D-Var followed by
  `.reshape_as(xb)`, a view of the clone — same storage) allocates a fresh
  cell, which is appended to `background_states`;
* after the loop the function returns `latest_x0` — the very object last
  appended.

Cell values are opaque (`α`); `upd` abstracts the optimizer's in-place
update of the candidate's value. -/

/-- A heap of tensor storages with values in `α`. -/
structure Heap (α : Type) where
  cells : List α
deriving DecidableEq

/-- Allocate a fresh cell; returns the new heap and the fresh reference. -/
def Heap.alloc {α : Type} (h : Heap α) (v : α) : Heap α × ℕ :=
  (⟨h.cells ++ [v]⟩, h.cells.length)

/-- Read a cell (`d` the junk value for dangling references). -/
def Heap.read {α : Type} (h : Heap α) (d : α) (r : ℕ) : α := h.cells.getD r d

/-- Overwrite a cell in place. -/
def Heap.write {α : Type} (h : Heap α) (r : ℕ) (v : α) : Heap α := ⟨h.cells.set r v⟩

/-- Heap, recorded `background_states` references, and `latest_x0` along
the loop. -/
structure AliasState (α : Type) where
  heap : Heap α
  snaps : List ℕ
  latest : Option ℕ

/-- One loop iteration of either solver, storage-wise: mutate the candidate
cell in place, then allocate the snapshot cell and append it. -/
def aliasStep {α : Type} (d : α) (upd : α → α) (cand : ℕ) (st : AliasState α) :
    AliasState α :=
  let h1 := st.heap.write cand (upd (st.heap.read d cand))
  let a := h1.alloc (h1.read d cand)
  ⟨a.1, st.snaps ++ [a.2], some a.2⟩

/-- The storage skeleton of `apply_3DVar`/`apply_4DVar`: allocate the
candidate as a copy of `xb`, run `n` iterations, return
(`latest_x0` reference, snapshot references, candidate reference, final
heap). -/
def aliasVar {α : Type} (d : α) (n : ℕ) (upd : α → α) (xbRef : ℕ) (h0 : Heap α) :
    Option ℕ × List ℕ × ℕ × Heap α :=
  let c := h0.alloc (h0.read d xbRef)
  let fin := (aliasStep d upd c.2)^[n] ⟨c.1, [], none⟩
  (fin.latest, fin.snaps, c.2, fin.heap)

/-! ## Derived definitions used by the statements -/

/-- The matrix read off a list of rows (out-of-range entries default to 0). -/
def matL (rows : List (List ℚ)) (n : ℕ) : Matrix (Fin n) (Fin n) ℚ :=
  Matrix.of fun i j => (rows.getD (i : ℕ) []).getD (j : ℕ) 0

/-- The loss value `apply_3DVar` computes at iteration `n`. -/
def J3At {σ : Type} (H : List ℚ → List ℚ) (solve : Tensor → List ℚ → List ℚ)
    (B R xb y : Tensor) (engine : σ → Tensor → ℚ → ℚ × Tensor × σ) (s0 : σ)
    (n : ℕ) : ℚ :=
  loss3DVar H solve B R (inner3D xb) (inner3D y)
    (iter3 H solve B R xb y engine s0 n).cand

/-- The `Jb` value `apply_4DVar` computes at iteration `n`. -/
def Jb4At {σ : Type} (H : List ℚ → List ℚ) (solve : Tensor → List ℚ → List ℚ)
    (B R xb y : Tensor) (engine : σ → Tensor → ℚ → ℚ × Tensor × σ) (s0 : σ)
    (time_obs : List ℚ) (gap : ℕ) (M : Tensor → List ℚ → Tensor) (n : ℕ) : ℚ :=
  Jb4D H solve B R (iter4 time_obs gap M H solve B R xb y engine s0 n).cand.ravel
    xb.ravel (y.index0 0).ravel

/-- The `Jo` value `apply_4DVar` computes at iteration `n`. -/
def Jo4At {σ : Type} (H : List ℚ → List ℚ) (solve : Tensor → List ℚ → List ℚ)
    (B R xb y : Tensor) (engine : σ → Tensor → ℚ → ℚ × Tensor × σ) (s0 : σ)
    (time_obs : List ℚ) (gap : ℕ) (M : Tensor → List ℚ → Tensor) (n : ℕ) : ℚ :=
  (sweep4D M H solve R y gap (time_obs.drop 1) 1 (time_obs.getD 0 0)
    (iter4 time_obs gap M H solve B R xb y engine s0 n).cand).loss

/-- Column `j` of a 2-D tensor — the state vector at trailing-dimension
index `j`. -/
def Tensor.col2 (t : Tensor) (j : ℕ) : List ℚ :=
  (List.range (t.size 0)).map fun r => t.entry2 r j

/-- Modelled from the spec's words for C3 ("supports a trailing batch
dimension", batch summed over index `i`): the 3D-Var cost with the batch
index running over the TRAILING dimension, i.e. over columns of the 2-D
inputs — to be compared with the source's `loss3DVar`, which runs over the
leading dimension. -/
def loss3DVarSpecTrailing (H : List ℚ → List ℚ) (solve : Tensor → List ℚ → List ℚ)
    (B R xbI yI x0 : Tensor) : ℚ :=
  ((List.range (xbI.size 1)).map fun j =>
    let one_x0 := x0.col2 j
    let x0_minus_xb := vsub one_x0 (xbI.col2 j)
    let y_minus_H_x0 := vsub (yI.col2 j) (H one_x0)
    dot x0_minus_xb (solve B x0_minus_xb) + dot y_minus_H_x0 (solve R y_minus_H_x0)).sum

/-! ## Concrete instances used by witnesses and counterexamples -/

/-- Identity observation operator. -/
def exH : List ℚ → List ℚ := fun l => l

/-- Observation operator keeping the first component (used to separate
row-batching from column-batching). -/
def exHfst : List ℚ → List ℚ := fun l => [l.getD 0 0, 0]

/-- A solve oracle for identity covariances: `solve(I, v) = v`. -/
def exSolve : Tensor → List ℚ → List ℚ := fun _ v => v

/-- A trivial optimizer engine: gradient norm 0, candidate unchanged. -/
def exEngine : Unit → Tensor → ℚ → ℚ × Tensor × Unit := fun s x _ => (0, x, s)

/-- 2×2 identity-matrix tensor. -/
def exI2 : Tensor := ⟨[2, 2], [1, 0, 0, 1]⟩

/-- A 1-D state tensor. -/
def exXb1 : Tensor := ⟨[2], [0, 0]⟩

/-! ## The executable determinant agrees with `Matrix.det` -/

theorem list_sum_map_range {β : Type} [AddCommMonoid β] (f : ℕ → β) (n : ℕ) :
    ((List.range n).map f).sum = ∑ j ∈ Finset.range n, f j := by
  induction n with
  | zero => simp
  | succ m ih =>
      rw [List.range_succ, List.map_append, List.sum_append, Finset.sum_range_succ, ih]
      simp

theorem eraseIdx_getD_succAbove (n : ℕ) (row : List ℚ) (j : Fin (n + 1)) (k : Fin n) :
    (row.eraseIdx (j : ℕ)).getD (k : ℕ) 0 = row.getD ((j.succAbove k : Fin (n + 1)) : ℕ) 0 := by
  rcases lt_or_ge (k : ℕ) (j : ℕ) with h | h
  · rw [Fin.succAbove_of_castSucc_lt _ _ (by simpa [Fin.lt_def] using h)]
    rw [List.getD_eq_getElem?_getD, List.getElem?_eraseIdx_of_lt _ _ _ h,
      ← List.getD_eq_getElem?_getD, Fin.coe_castSucc]
  · rw [Fin.succAbove_of_le_castSucc _ _ (by simpa [Fin.le_def] using h)]
    rw [List.getD_eq_getElem?_getD, List.getElem?_eraseIdx_of_ge _ _ _ h,
      ← List.getD_eq_getElem?_getD, Fin.val_succ]

theorem detN_eq_det : ∀ (n : ℕ) (rows : List (List ℚ)), rows.length = n →
    (∀ r ∈ rows, r.length = n) → detN n rows = (matL rows n).det := by
  intro n
  induction n with
  | zero =>
      intro rows hlen _
      rw [List.length_eq_zero.mp hlen]
      rw [Matrix.det_fin_zero]
      rfl
  | succ m ih =>
      intro rows hlen hrows
      match rows, hlen with
      | r :: rest, hlen =>
        have hr : r.length = m + 1 := hrows r (List.mem_cons_self r rest)
        have hrest : rest.length = m := by simpa using hlen
        show ((List.range r.length).map fun j =>
          (-1) ^ j * r.getD j 0 * detN m (rest.map fun row => row.eraseIdx j)).sum = _
        rw [hr, list_sum_map_range, Finset.sum_range, Matrix.det_succ_row_zero]
        refine Finset.sum_congr rfl fun j _ => ?_
        have hmap : (rest.map fun row => row.eraseIdx (j : ℕ)).length = m := by
          simpa using hrest
        have hmaprows : ∀ r' ∈ rest.map fun row => row.eraseIdx (j : ℕ), r'.length = m := by
          intro r' hr'
          obtain ⟨row, hrow, rfl⟩ := List.mem_map.mp hr'
          have hlrow : row.length = m + 1 := hrows row (List.mem_cons_of_mem r hrow)
          rw [List.length_eraseIdx]
          rw [hlrow]
          simp [j.isLt]
        rw [ih _ hmap hmaprows]
        have hM : matL (rest.map fun row => row.eraseIdx (j : ℕ)) m =
            (matL (r :: rest) (m + 1)).submatrix Fin.succ j.succAbove := by
          funext i k
          show ((rest.map fun row => row.eraseIdx (j : ℕ)).getD (i : ℕ) []).getD (k : ℕ) 0 = _
          have hi : (i : ℕ) < rest.length := by rw [hrest]; exact i.isLt
          have houter : (rest.map fun row => row.eraseIdx (j : ℕ)).getD (i : ℕ) [] =
              rest[(i : ℕ)].eraseIdx (j : ℕ) := by
            rw [List.getD_eq_getElem?_getD, List.getElem?_map, List.getElem?_eq_getElem hi]
            rfl
          rw [houter, eraseIdx_getD_succAbove m]
          show _ = ((r :: rest).getD ((i : ℕ) + 1) []).getD ((j.succAbove k : Fin (m + 1)) : ℕ) 0
          have hgd : rest.getD (i : ℕ) [] = rest[(i : ℕ)] := by
            rw [List.getD_eq_getElem?_getD, List.getElem?_eq_getElem hi]
            rfl
          rw [List.getD_cons_succ, hgd]
        rw [hM]
        have h0 : (matL (r :: rest) (m + 1)) 0 j = r.getD (j : ℕ) 0 := rfl
        rw [h0]

/-- `detL` computes the determinant of a square list matrix. -/
theorem detL_eq_det (n : ℕ) (rows : List (List ℚ)) (hlen : rows.length = n)
    (hrows : ∀ r ∈ rows, r.length = n) : detL rows = (matL rows n).det := by
  rw [detL, hlen]
  exact detN_eq_det n rows hlen hrows

/-! ## Storage-model lemmas -/

theorem Heap.length_write {α : Type} (h : Heap α) (r : ℕ) (v : α) :
    (h.write r v).cells.length = h.cells.length := by
  simp [Heap.write]

theorem Heap.read_write_ne {α : Type} (h : Heap α) (d : α) (r r' : ℕ) (v : α)
    (hne : r' ≠ r) : (h.write r v).read d r' = h.read d r' := by
  simp [Heap.write, Heap.read, List.getD_eq_getElem?_getD, List.getElem?_set_ne (Ne.symm hne)]

/-- Shape of the alias-model loop state after `k` iterations, from any
start: snapshot references are consecutively allocated fresh cells, and
`latest` points at the most recent one. -/
theorem aliasStep_iterate_spec {α : Type} (d : α) (upd : α → α) (cand : ℕ)
    (h1 : Heap α) (s : List ℕ) (l : Option ℕ) (k : ℕ) :
    ((aliasStep d upd cand)^[k] ⟨h1, s, l⟩).snaps =
      s ++ (List.range k).map (fun i => h1.cells.length + i) ∧
    ((aliasStep d upd cand)^[k] ⟨h1, s, l⟩).heap.cells.length = h1.cells.length + k ∧
    ((aliasStep d upd cand)^[k] ⟨h1, s, l⟩).latest =
      (if k = 0 then l else some (h1.cells.length + k - 1)) := by
  induction k with
  | zero => simp
  | succ m ih =>
      obtain ⟨hs, hh, _⟩ := ih
      rw [Function.iterate_succ_apply']
      refine ⟨?_, ?_, ?_⟩
      · simp only [aliasStep, Heap.alloc]
        rw [Heap.length_write, hh, hs, List.range_succ, List.map_append, List.append_assoc,
          List.map_singleton]
      · simp only [aliasStep, Heap.alloc, List.length_append, List.length_singleton]
        rw [Heap.length_write, hh]
        omega
      · simp only [aliasStep, Heap.alloc]
        rw [Heap.length_write, hh, if_neg (Nat.succ_ne_zero m)]
        simp

/-! ## Observation-segment sweep lemmas -/

section SweepLemmas

variable (M : Tensor → List ℚ → Tensor) (H : List ℚ → List ℚ)
  (solve : Tensor → List ℚ → List ℚ) (R y : Tensor) (gap : ℕ)

theorem sweep4D_grids (l : List ℚ) : ∀ (iobs : ℕ) (ct : ℚ) (xp : Tensor),
    (sweep4D M H solve R y gap l iobs ct xp).grids = specGrids gap ct l := by
  induction l with
  | nil => intro iobs ct xp; rfl
  | cons t rest ih =>
      intro iobs ct xp
      simp only [sweep4D, specGrids, ih]

theorem sweep4D_mInputs_length (l : List ℚ) : ∀ (iobs : ℕ) (ct : ℚ) (xp : Tensor),
    (sweep4D M H solve R y gap l iobs ct xp).mInputs.length = l.length := by
  induction l with
  | nil => intro iobs ct xp; rfl
  | cons t rest ih =>
      intro iobs ct xp
      simp only [sweep4D, List.length_cons, ih]

theorem sweep4D_nTerms (s : ℕ) (hM : ∀ x t, (M x t).size 1 = s) (l : List ℚ) :
    ∀ (iobs : ℕ) (ct : ℚ) (xp : Tensor),
      (sweep4D M H solve R y gap l iobs ct xp).nTerms = l.length * s := by
  induction l with
  | nil => intro iobs ct xp; simp [sweep4D]
  | cons t rest ih =>
      intro iobs ct xp
      simp only [sweep4D, ih, hM, List.length_cons]
      ring

theorem sweep4D_mInputs_zero (t : ℚ) (rest : List ℚ) (iobs : ℕ) (ct : ℚ) (xp : Tensor) :
    (sweep4D M H solve R y gap (t :: rest) iobs ct xp).mInputs[0]? = some xp := by
  simp [sweep4D]

/-- Unfolding of one segment: the recorded `M` input and the re-anchored
state. -/
theorem sweep4D_mInputs_cons (t : ℚ) (rest : List ℚ) (iobs : ℕ) (ct : ℚ) (xp : Tensor) :
    (sweep4D M H solve R y gap (t :: rest) iobs ct xp).mInputs =
      xp :: (sweep4D M H solve R y gap rest (iobs + 1) t
        (chainNext M xp (linspaceQ ct t (gap + 1)))).mInputs := by
  simp [sweep4D, chainNext]

theorem sweep4D_grids_cons (t : ℚ) (rest : List ℚ) (iobs : ℕ) (ct : ℚ) (xp : Tensor) :
    (sweep4D M H solve R y gap (t :: rest) iobs ct xp).grids =
      linspaceQ ct t (gap + 1) :: (sweep4D M H solve R y gap rest (iobs + 1) t
        (chainNext M xp (linspaceQ ct t (gap + 1)))).grids := by
  simp [sweep4D, chainNext]

/-- Chaining of the segment loop: the tensor handed to `M` for segment
`k + 1` is the trailing `xf.size 1` slice of segment `k`'s output `xf`. -/
theorem sweep4D_chain (l : List ℚ) :
    ∀ (iobs : ℕ) (ct : ℚ) (xp : Tensor) (k : ℕ), k + 1 < l.length →
      ∀ (x : Tensor) (g : List ℚ),
        (sweep4D M H solve R y gap l iobs ct xp).mInputs[k]? = some x →
        (sweep4D M H solve R y gap l iobs ct xp).grids[k]? = some g →
        (sweep4D M H solve R y gap l iobs ct xp).mInputs[k + 1]? =
          some (chainNext M x g) := by
  induction l with
  | nil =>
      intro iobs ct xp k hk
      simp at hk
  | cons t rest ih =>
      intro iobs ct xp k hk x g hx hg
      rw [sweep4D_mInputs_cons] at hx ⊢
      rw [sweep4D_grids_cons] at hg
      match k with
      | 0 =>
          rw [List.getElem?_cons_zero] at hx hg
          obtain rfl : xp = x := Option.some_inj.mp hx
          obtain rfl : linspaceQ ct t (gap + 1) = g := Option.some_inj.mp hg
          rw [List.getElem?_cons_succ]
          match rest, hk with
          | t2 :: rest2, _ =>
              rw [sweep4D_mInputs_cons, List.getElem?_cons_zero]
      | k' + 1 =>
          have hk' : k' + 1 < rest.length := by simpa using hk
          rw [List.getElem?_cons_succ] at hx hg ⊢
          exact ih (iobs + 1) t (chainNext M xp (linspaceQ ct t (gap + 1))) k' hk' x g hx hg

end SweepLemmas

/-! ## Loop characterizations -/

section LoopLemmas

variable {σ : Type} (H : List ℚ → List ℚ) (solve : Tensor → List ℚ → List ℚ)
  (B R xb y : Tensor) (engine : σ → Tensor → ℚ → ℚ × Tensor × σ) (s0 : σ)

theorem iter3_succ (n : ℕ) :
    iter3 H solve B R xb y engine s0 (n + 1) =
      step3D H solve B R xb y engine (iter3 H solve B R xb y engine s0 n) := by
  simp [iter3, Function.iterate_succ_apply']

theorem iter3_cand_succ (n : ℕ) :
    (iter3 H solve B R xb y engine s0 (n + 1)).cand =
      (engine (iter3 H solve B R xb y engine s0 n).os
        (iter3 H solve B R xb y engine s0 n).cand
        (J3At H solve B R xb y engine s0 n)).2.1 := by
  rw [iter3_succ]; rfl

/-- Full characterization of the `apply_3DVar` loop state after `n`
iterations: each diagnostics list holds one entry per completed iteration,
and `latest_x0` is assigned exactly when at least one iteration ran. -/
theorem iter3_spec (n : ℕ) :
    (iter3 H solve B R xb y engine s0 n).J =
      (List.range n).map (fun k => J3At H solve B R xb y engine s0 k) ∧
    (iter3 H solve B R xb y engine s0 n).gnorm =
      (List.range n).map (fun k =>
        (engine (iter3 H solve B R xb y engine s0 k).os
          (iter3 H solve B R xb y engine s0 k).cand
          (J3At H solve B R xb y engine s0 k)).1) ∧
    (iter3 H solve B R xb y engine s0 n).bg =
      (List.range n).map (fun k =>
        Tensor.reshapeAs (iter3 H solve B R xb y engine s0 (k + 1)).cand xb) ∧
    (iter3 H solve B R xb y engine s0 n).latest =
      (if n = 0 then none
       else some (Tensor.reshapeAs (iter3 H solve B R xb y engine s0 n).cand xb)) := by
  induction n with
  | zero => exact ⟨rfl, rfl, rfl, rfl⟩
  | succ m ih =>
      obtain ⟨hJ, hg, hbg, _⟩ := ih
      rw [iter3_succ]
      refine ⟨?_, ?_, ?_, ?_⟩
      · show (iter3 H solve B R xb y engine s0 m).J ++ [J3At H solve B R xb y engine s0 m] = _
        rw [hJ, List.range_succ, List.map_append]; rfl
      · show (iter3 H solve B R xb y engine s0 m).gnorm ++ _ = _
        rw [hg, List.range_succ, List.map_append]; rfl
      · show (iter3 H solve B R xb y engine s0 m).bg ++
          [Tensor.reshapeAs (engine (iter3 H solve B R xb y engine s0 m).os
            (iter3 H solve B R xb y engine s0 m).cand
            (J3At H solve B R xb y engine s0 m)).2.1 xb] = _
        rw [hbg, List.range_succ, List.map_append, List.map_singleton, iter3_cand_succ]
      · show some (Tensor.reshapeAs (engine (iter3 H solve B R xb y engine s0 m).os
            (iter3 H solve B R xb y engine s0 m).cand
            (J3At H solve B R xb y engine s0 m)).2.1 xb) = _
        rw [if_neg (Nat.succ_ne_zero m)]; rfl

variable (time_obs : List ℚ) (gap : ℕ) (M : Tensor → List ℚ → Tensor)

theorem iter4_succ (n : ℕ) :
    iter4 time_obs gap M H solve B R xb y engine s0 (n + 1) =
      step4D time_obs gap M H solve B R xb y engine
        (iter4 time_obs gap M H solve B R xb y engine s0 n) := by
  simp [iter4, Function.iterate_succ_apply']

theorem iter4_cand_succ (n : ℕ) :
    (iter4 time_obs gap M H solve B R xb y engine s0 (n + 1)).cand =
      (engine (iter4 time_obs gap M H solve B R xb y engine s0 n).os
        (iter4 time_obs gap M H solve B R xb y engine s0 n).cand
        (Jb4At H solve B R xb y engine s0 time_obs gap M n +
          Jo4At H solve B R xb y engine s0 time_obs gap M n)).2.1 := by
  rw [iter4_succ]; rfl

/-- Full characterization of the `apply_4DVar` loop state after `n`
iterations. -/
theorem iter4_spec (n : ℕ) :
    (iter4 time_obs gap M H solve B R xb y engine s0 n).Jb =
      (List.range n).map (fun k => Jb4At H solve B R xb y engine s0 time_obs gap M k) ∧
    (iter4 time_obs gap M H solve B R xb y engine s0 n).Jo =
      (List.range n).map (fun k => Jo4At H solve B R xb y engine s0 time_obs gap M k) ∧
    (iter4 time_obs gap M H solve B R xb y engine s0 n).gnorm =
      (List.range n).map (fun k =>
        (engine (iter4 time_obs gap M H solve B R xb y engine s0 k).os
          (iter4 time_obs gap M H solve B R xb y engine s0 k).cand
          (Jb4At H solve B R xb y engine s0 time_obs gap M k +
            Jo4At H solve B R xb y engine s0 time_obs gap M k)).1) ∧
    (iter4 time_obs gap M H solve B R xb y engine s0 n).bg =
      (List.range n).map (fun k =>
        (iter4 time_obs gap M H solve B R xb y engine s0 (k + 1)).cand) ∧
    (iter4 time_obs gap M H solve B R xb y engine s0 n).latest =
      (if n = 0 then none
       else some (iter4 time_obs gap M H solve B R xb y engine s0 n).cand) := by
  induction n with
  | zero => exact ⟨rfl, rfl, rfl, rfl, rfl⟩
  | succ m ih =>
      obtain ⟨hb, ho, hg, hbg, _⟩ := ih
      rw [iter4_succ]
      refine ⟨?_, ?_, ?_, ?_, ?_⟩
      · show (iter4 time_obs gap M H solve B R xb y engine s0 m).Jb ++ _ = _
        rw [hb, List.range_succ, List.map_append]; rfl
      · show (iter4 time_obs gap M H solve B R xb y engine s0 m).Jo ++ _ = _
        rw [ho, List.range_succ, List.map_append]; rfl
      · show (iter4 time_obs gap M H solve B R xb y engine s0 m).gnorm ++ _ = _
        rw [hg, List.range_succ, List.map_append]; rfl
      · show (iter4 time_obs gap M H solve B R xb y engine s0 m).bg ++ _ = _
        rw [hbg, List.range_succ, List.map_append, List.map_singleton, iter4_cand_succ]
        rfl
      · rw [if_neg (Nat.succ_ne_zero m)]; rfl

end LoopLemmas

/-! ## Claims -/

/-- C4 counterexample: the builder setters accept values that violate the
claimed constraints `gap ≥ 1`, `max_iterations ≥ 1`, `learning_rate > 0` —
`set_gap 0`, `set_max_iterations (-5)` and `set_learning_rate (-1)` all
succeed instead of failing. -/
theorem c4_counterexample :
    set_gap ⟨1, 1000, 1 / 1000, true⟩ (.int 0) = .ok ⟨0, 1000, 1 / 1000, true⟩ ∧
    set_max_iterations ⟨1, 1000, 1 / 1000, true⟩ (.int (-5)) =
      .ok ⟨1, -5, 1 / 1000, true⟩ ∧
    set_learning_rate ⟨1, 1000, 1 / 1000, true⟩ (.float (-1)) =
      .ok ⟨1, 1000, -1, true⟩ :=
  ⟨rfl, rfl, rfl⟩

/-- C4 (amended): the builder setters validate only the Python type of the
assigned value — any `int` is accepted for `gap` and `max_iterations`, any
`int`/`float` for `learning_rate` (wrong types fail with a `TypeError`);
no range constraint (`gap ≥ 1`, `max_iterations ≥ 1`, `learning_rate > 0`)
is enforced on assignment. -/
theorem c4_amended (p : Parameters) (n : ℤ) (q : ℚ) (s : String) :
    set_gap p (.int n) = .ok { p with gap := n } ∧
    set_max_iterations p (.int n) = .ok { p with max_iterations := n } ∧
    set_learning_rate p (.int n) = .ok { p with learning_rate := (n : ℚ) } ∧
    set_learning_rate p (.float q) = .ok { p with learning_rate := q } ∧
    set_gap p (.float q) = .error "gap must be an integer" ∧
    set_gap p (.str s) = .error "gap must be an integer" ∧
    set_max_iterations p (.float q) = .error "max_iterations must be an integer" ∧
    set_learning_rate p (.str s) =
      .error "learning_rate must be an integer or a floating point number" :=
  ⟨rfl, rfl, rfl, rfl, rfl, rfl, rfl, rfl⟩

/-- C9: the solvers are deterministic — two calls of `apply_3DVar`
(respectively `apply_4DVar`) with identical inputs, identical deterministic
`H`, `M` and solve oracles, and identical optimizer engine and initial
optimizer state produce identical results (final state and all diagnostics
sequences). -/
theorem c9_determinism {σ : Type}
    (H1 H2 : List ℚ → List ℚ) (solve1 solve2 : Tensor → List ℚ → List ℚ)
    (B1 B2 R1 R2 xb1 xb2 y1 y2 : Tensor) (mi1 mi2 : ℤ) (lg1 lg2 : Bool)
    (eng1 eng2 : σ → Tensor → ℚ → ℚ × Tensor × σ) (s1 s2 : σ)
    (tobs1 tobs2 : List ℚ) (gap1 gap2 : ℕ) (M1 M2 : Tensor → List ℚ → Tensor)
    (hH : H1 = H2) (hsolve : solve1 = solve2) (hB : B1 = B2) (hR : R1 = R2)
    (hxb : xb1 = xb2) (hy : y1 = y2) (hmi : mi1 = mi2) (hlg : lg1 = lg2)
    (heng : eng1 = eng2) (hs : s1 = s2) (htobs : tobs1 = tobs2)
    (hgap : gap1 = gap2) (hM : M1 = M2) :
    apply_3DVar H1 solve1 B1 R1 xb1 y1 mi1 lg1 eng1 s1 =
      apply_3DVar H2 solve2 B2 R2 xb2 y2 mi2 lg2 eng2 s2 ∧
    apply_4DVar tobs1 gap1 M1 H1 solve1 B1 R1 xb1 y1 mi1 lg1 eng1 s1 =
      apply_4DVar tobs2 gap2 M2 H2 solve2 B2 R2 xb2 y2 mi2 lg2 eng2 s2 := by
  subst hH hsolve hB hR hxb hy hmi hlg heng hs htobs hgap hM
  exact ⟨rfl, rfl⟩

/-- C9 witness: the determinism theorem at a concrete instance. -/
theorem c9_determinism_witness :
    apply_3DVar exH exSolve exI2 exI2 exXb1 exXb1 3 false exEngine () =
      apply_3DVar exH exSolve exI2 exI2 exXb1 exXb1 3 false exEngine () ∧
    apply_4DVar [0, 1] 1 (fun x _ => x) exH exSolve exI2 exI2 exXb1 exXb1 3 false
        exEngine () =
      apply_4DVar [0, 1] 1 (fun x _ => x) exH exSolve exI2 exI2 exXb1 exXb1 3 false
        exEngine () :=
  c9_determinism exH exH exSolve exSolve exI2 exI2 exI2 exI2 exXb1 exXb1 exXb1 exXb1
    3 3 false false exEngine exEngine () () [0, 1] [0, 1] 1 1
    (fun x _ => x) (fun x _ => x) rfl rfl rfl rfl rfl rfl rfl rfl rfl rfl rfl rfl rfl

/-- C10: with `max_iterations ≤ 0` the loop body of either solver never
executes, `latest_x0` is never assigned, and the `return` statement raises
an unbound-local error instead of returning empty diagnostics; a normal
return therefore requires `max_iterations ≥ 1`. -/
theorem c10_unbound_local {σ : Type} (H : List ℚ → List ℚ)
    (solve : Tensor → List ℚ → List ℚ) (B R xb y : Tensor) (lg : Bool)
    (engine : σ → Tensor → ℚ → ℚ × Tensor × σ) (s0 : σ)
    (time_obs : List ℚ) (gap : ℕ) (M : Tensor → List ℚ → Tensor) (mi : ℤ) :
    (mi ≤ 0 →
      apply_3DVar H solve B R xb y mi lg engine s0 =
        .error "UnboundLocalError: latest_x0" ∧
      apply_4DVar time_obs gap M H solve B R xb y mi lg engine s0 =
        .error "UnboundLocalError: latest_x0") ∧
    (∀ r, apply_3DVar H solve B R xb y mi lg engine s0 = .ok r → 1 ≤ mi) ∧
    (∀ r, apply_4DVar time_obs gap M H solve B R xb y mi lg engine s0 = .ok r →
      1 ≤ mi) := by
  have herr : mi ≤ 0 →
      apply_3DVar H solve B R xb y mi lg engine s0 =
        .error "UnboundLocalError: latest_x0" ∧
      apply_4DVar time_obs gap M H solve B R xb y mi lg engine s0 =
        .error "UnboundLocalError: latest_x0" := by
    intro hmi
    have h0 : mi.toNat = 0 := Int.toNat_eq_zero.mpr hmi
    constructor
    · simp [apply_3DVar, iter3, h0]
    · simp [apply_4DVar, iter4, h0]
  refine ⟨herr, ?_, ?_⟩
  · intro r hr
    by_contra hlt
    have hmi : mi ≤ 0 := by omega
    rw [(herr hmi).1] at hr
    exact Except.noConfusion hr
  · intro r hr
    by_contra hlt
    have hmi : mi ≤ 0 := by omega
    rw [(herr hmi).2] at hr
    exact Except.noConfusion hr

/-- C10 witness: at `max_iterations = -3` and `0` both solvers raise the
unbound-local error. -/
theorem c10_unbound_local_witness :
    ((-3 : ℤ) ≤ 0 ∧
      apply_3DVar exH exSolve exI2 exI2 exXb1 exXb1 (-3) false exEngine () =
        .error "UnboundLocalError: latest_x0") ∧
    apply_4DVar [0, 1] 1 (fun x _ => x) exH exSolve exI2 exI2 exXb1 exXb1 0 false
      exEngine () = .error "UnboundLocalError: latest_x0" :=
  ⟨⟨by decide,
    ((c10_unbound_local exH exSolve exI2 exI2 exXb1 exXb1 false exEngine ()
      [0, 1] 1 (fun x _ => x) (-3)).1 (by decide)).1⟩,
    ((c10_unbound_local exH exSolve exI2 exI2 exXb1 exXb1 false exEngine ()
      [0, 1] 1 (fun x _ => x) 0).1 (by decide)).2⟩

theorem iter4_cand_shape {σ : Type} (H : List ℚ → List ℚ)
    (solve : Tensor → List ℚ → List ℚ) (B R xb y : Tensor)
    (engine : σ → Tensor → ℚ → ℚ × Tensor × σ) (s0 : σ)
    (time_obs : List ℚ) (gap : ℕ) (M : Tensor → List ℚ → Tensor)
    (heng : ∀ s x q, ((engine s x q).2.1).shape = x.shape) :
    ∀ n, (iter4 time_obs gap M H solve B R xb y engine s0 n).cand.shape = xb.shape := by
  intro n
  induction n with
  | zero => rfl
  | succ m ih =>
      rw [iter4_cand_succ, heng]
      exact ih

/-- C5: for every `max_iterations = N ≥ 1` (and an optimizer step that
preserves the candidate's shape, as Adam does), `apply_3DVar` returns a
final state of `xb`'s shape plus a diagnostics mapping with keys
`J`, `J_grad_norm`, `background_states`, and `apply_4DVar` one with keys
`Jb`, `Jo`, `J_grad_norm`, `background_states`; every diagnostics value is
a per-iteration sequence of length exactly `N`. -/
theorem c5_result_contract {σ : Type} (H : List ℚ → List ℚ)
    (solve : Tensor → List ℚ → List ℚ) (B R xb y : Tensor) (N : ℕ)
    (lg : Bool) (engine : σ → Tensor → ℚ → ℚ × Tensor × σ) (s0 : σ)
    (time_obs : List ℚ) (gap : ℕ) (M : Tensor → List ℚ → Tensor)
    (hN : 1 ≤ N) (heng : ∀ s x q, ((engine s x q).2.1).shape = x.shape) :
    ∃ x3 d3 x4 d4,
      apply_3DVar H solve B R xb y (N : ℤ) lg engine s0 = .ok (x3, d3) ∧
      x3.shape = xb.shape ∧
      d3.map Prod.fst = ["J", "J_grad_norm", "background_states"] ∧
      d3.map (fun kv => kv.2.len) = [N, N, N] ∧
      apply_4DVar time_obs gap M H solve B R xb y (N : ℤ) lg engine s0 =
        .ok (x4, d4) ∧
      x4.shape = xb.shape ∧
      d4.map Prod.fst = ["Jb", "Jo", "J_grad_norm", "background_states"] ∧
      d4.map (fun kv => kv.2.len) = [N, N, N, N] := by
  have hnat : ((N : ℤ)).toNat = N := Int.toNat_natCast N
  have hne : ¬ (N = 0) := by omega
  obtain ⟨hJ, hg, hbg, hl⟩ := iter3_spec H solve B R xb y engine s0 N
  obtain ⟨hb4, ho4, hg4, hbg4, hl4⟩ :=
    iter4_spec H solve B R xb y engine s0 time_obs gap M N
  refine ⟨Tensor.reshapeAs (iter3 H solve B R xb y engine s0 N).cand xb,
    [("J", .nums ((iter3 H solve B R xb y engine s0 N).J)),
     ("J_grad_norm", .nums ((iter3 H solve B R xb y engine s0 N).gnorm)),
     ("background_states", .states ((iter3 H solve B R xb y engine s0 N).bg))],
    (iter4 time_obs gap M H solve B R xb y engine s0 N).cand,
    [("Jb", .nums ((iter4 time_obs gap M H solve B R xb y engine s0 N).Jb)),
     ("Jo", .nums ((iter4 time_obs gap M H solve B R xb y engine s0 N).Jo)),
     ("J_grad_norm", .nums ((iter4 time_obs gap M H solve B R xb y engine s0 N).gnorm)),
     ("background_states", .states ((iter4 time_obs gap M H solve B R xb y engine s0 N).bg))],
    ?_, rfl, rfl, ?_, ?_, ?_, rfl, ?_⟩
  · simp only [apply_3DVar, hnat, hl, if_neg hne]
  · simp only [DiagVal.len, List.map_cons, List.map_nil, hJ, hg, hbg,
      List.length_map, List.length_range]
  · simp only [apply_4DVar, hnat, hl4, if_neg hne]
  · exact iter4_cand_shape H solve B R xb y engine s0 time_obs gap M heng N
  · simp only [DiagVal.len, List.map_cons, List.map_nil, hb4, ho4, hg4, hbg4,
      List.length_map, List.length_range]

/-- C5 witness: the result contract at a concrete instance with `N = 1`. -/
theorem c5_result_contract_witness :
    1 ≤ 1 ∧
    ∃ x3 d3 x4 d4,
      apply_3DVar exH exSolve exI2 exI2 exXb1 exXb1 (1 : ℤ) false exEngine () =
        .ok (x3, d3) ∧
      x3.shape = exXb1.shape ∧
      d3.map Prod.fst = ["J", "J_grad_norm", "background_states"] ∧
      d3.map (fun kv => kv.2.len) = [1, 1, 1] ∧
      apply_4DVar [0, 1] 1 (fun x _ => x) exH exSolve exI2 exI2 exXb1 exXb1
        (1 : ℤ) false exEngine () = .ok (x4, d4) ∧
      x4.shape = exXb1.shape ∧
      d4.map Prod.fst = ["Jb", "Jo", "J_grad_norm", "background_states"] ∧
      d4.map (fun kv => kv.2.len) = [1, 1, 1, 1] :=
  ⟨Nat.le_refl 1,
    c5_result_contract exH exSolve exI2 exI2 exXb1 exXb1 1 false exEngine ()
      [0, 1] 1 (fun x _ => x) (Nat.le_refl 1) (fun _ _ _ => rfl)⟩

/-- C3 counterexample: the 3D-Var per-iteration cost does NOT treat the
batch index as a trailing dimension.  On the 2×2 candidate
`[[1, 2], [3, 4]]` with zero background/observations, identity covariances
and `H = exHfst`, the source's cost (which batches over the LEADING
dimension) is 40, while the claimed trailing-batch cost is 35. -/
theorem c3_counterexample :
    loss3DVar exHfst exSolve exI2 exI2 (inner3D ⟨[2, 2], [0, 0, 0, 0]⟩)
        (inner3D ⟨[2, 2], [0, 0, 0, 0]⟩) ⟨[2, 2], [1, 2, 3, 4]⟩ = 40 ∧
    loss3DVarSpecTrailing exHfst exSolve exI2 exI2 ⟨[2, 2], [0, 0, 0, 0]⟩
        ⟨[2, 2], [0, 0, 0, 0]⟩ ⟨[2, 2], [1, 2, 3, 4]⟩ = 35 ∧
    loss3DVar exHfst exSolve exI2 exI2 (inner3D ⟨[2, 2], [0, 0, 0, 0]⟩)
        (inner3D ⟨[2, 2], [0, 0, 0, 0]⟩) ⟨[2, 2], [1, 2, 3, 4]⟩ ≠
      loss3DVarSpecTrailing exHfst exSolve exI2 exI2 ⟨[2, 2], [0, 0, 0, 0]⟩
        ⟨[2, 2], [0, 0, 0, 0]⟩ ⟨[2, 2], [1, 2, 3, 4]⟩ := by
  have h1 : loss3DVar exHfst exSolve exI2 exI2 (inner3D ⟨[2, 2], [0, 0, 0, 0]⟩)
      (inner3D ⟨[2, 2], [0, 0, 0, 0]⟩) ⟨[2, 2], [1, 2, 3, 4]⟩ = 40 := by
    simp [loss3DVar, inner3D, Tensor.index0, Tensor.ravel, Tensor.rowNumel, Tensor.size,
      Tensor.ndim, vsub, dot, exHfst, exSolve, List.range_succ]
    norm_num
  have h2 : loss3DVarSpecTrailing exHfst exSolve exI2 exI2 ⟨[2, 2], [0, 0, 0, 0]⟩
      ⟨[2, 2], [0, 0, 0, 0]⟩ ⟨[2, 2], [1, 2, 3, 4]⟩ = 35 := by
    simp [loss3DVarSpecTrailing, Tensor.col2, Tensor.entry2, Tensor.size, vsub, dot,
      exHfst, exSolve, List.range_succ]
    norm_num
  refine ⟨h1, h2, ?_⟩
  rw [h1, h2]
  norm_num

/-- C3 (amended): each iteration of `apply_3DVar` records the cost
`J(x0) = Σ_i (x0ᵢ - xbᵢ) ⬝ solve(B, x0ᵢ - xbᵢ) + (yᵢ - H(x0ᵢ)) ⬝ solve(R, yᵢ - H(x0ᵢ))`
where `i` runs over the LEADING dimension of the (unsqueezed) inputs — not
the trailing dimension; each quadratic form goes through the matrix solve,
and 1-D inputs are unsqueezed to a leading batch dimension of size 1. -/
theorem c3_amended {σ : Type} (H : List ℚ → List ℚ)
    (solve : Tensor → List ℚ → List ℚ) (B R xbI yI x0 xb : Tensor)
    (engine : σ → Tensor → ℚ → ℚ × Tensor × σ) (s0 : σ)
    (xb' y' : Tensor) (n : ℕ) :
    loss3DVar H solve B R xbI yI x0 =
      (∑ i ∈ Finset.range (xbI.size 0),
        (dot (vsub (x0.index0 i).ravel (xbI.index0 i).ravel)
            (solve B (vsub (x0.index0 i).ravel (xbI.index0 i).ravel)) +
          dot (vsub (yI.index0 i).ravel (H (x0.index0 i).ravel))
            (solve R (vsub (yI.index0 i).ravel (H (x0.index0 i).ravel))))) ∧
    (xb.ndim = 1 → inner3D xb = xb.unsqueeze0 ∧ (inner3D xb).size 0 = 1) ∧
    (xb.ndim ≠ 1 → inner3D xb = xb) ∧
    (iter3 H solve B R xb' y' engine s0 n).J =
      (List.range n).map (fun k =>
        loss3DVar H solve B R (inner3D xb') (inner3D y')
          (iter3 H solve B R xb' y' engine s0 k).cand) := by
  refine ⟨?_, ?_, ?_, (iter3_spec H solve B R xb' y' engine s0 n).1⟩
  · rw [loss3DVar, list_sum_map_range]
  · intro h1
    refine ⟨?_, ?_⟩
    · simp [inner3D, h1]
    · simp [inner3D, h1, Tensor.unsqueeze0, Tensor.size]
  · intro h1
    simp [inner3D, h1]

/-- C3 witness: the amended characterization at a concrete instance
(1-D inputs get a leading batch dimension of size 1). -/
theorem c3_amended_witness :
    exXb1.ndim = 1 ∧
    (inner3D exXb1 = exXb1.unsqueeze0 ∧ (inner3D exXb1).size 0 = 1) ∧
    loss3DVar exH exSolve exI2 exI2 exXb1 exXb1 exXb1 =
      (∑ i ∈ Finset.range (exXb1.size 0),
        (dot (vsub (exXb1.index0 i).ravel (exXb1.index0 i).ravel)
            (exSolve exI2 (vsub (exXb1.index0 i).ravel (exXb1.index0 i).ravel)) +
          dot (vsub (exXb1.index0 i).ravel (exH (exXb1.index0 i).ravel))
            (exSolve exI2 (vsub (exXb1.index0 i).ravel (exH (exXb1.index0 i).ravel))))) :=
  ⟨rfl,
    (c3_amended exH exSolve exI2 exI2 exXb1 exXb1 exXb1 exXb1 exEngine ()
      exXb1 exXb1 0).2.1 rfl,
    (c3_amended exH exSolve exI2 exI2 exXb1 exXb1 exXb1 exXb1 exEngine ()
      exXb1 exXb1 0).1⟩

/-- C8: in each `apply_4DVar` iteration the recorded `Jb` value equals
`(x0 - xb) ⬝ solve(B, x0 - xb) + (y₀ - H(x0)) ⬝ solve(R, y₀ - H(x0))`
at that iteration's candidate (background misfit plus the observation
misfit at the initial time against `y[0]`), the recorded `Jb`/`Jo`
sequences are exactly these per-iteration values, and the loss handed to
the backward/step engine is `J = Jb + Jo`. -/
theorem c8_jb_total {σ : Type} (H : List ℚ → List ℚ)
    (solve : Tensor → List ℚ → List ℚ) (B R xb y : Tensor)
    (engine : σ → Tensor → ℚ → ℚ × Tensor × σ) (s0 : σ)
    (time_obs : List ℚ) (gap : ℕ) (M : Tensor → List ℚ → Tensor) (n : ℕ) :
    Jb4At H solve B R xb y engine s0 time_obs gap M n =
      (dot (vsub (iter4 time_obs gap M H solve B R xb y engine s0 n).cand.ravel xb.ravel)
          (solve B (vsub (iter4 time_obs gap M H solve B R xb y engine s0 n).cand.ravel
            xb.ravel)) +
        dot (vsub (y.index0 0).ravel
            (H (iter4 time_obs gap M H solve B R xb y engine s0 n).cand.ravel))
          (solve R (vsub (y.index0 0).ravel
            (H (iter4 time_obs gap M H solve B R xb y engine s0 n).cand.ravel)))) ∧
    (iter4 time_obs gap M H solve B R xb y engine s0 n).Jb =
      (List.range n).map (fun k => Jb4At H solve B R xb y engine s0 time_obs gap M k) ∧
    (iter4 time_obs gap M H solve B R xb y engine s0 n).Jo =
      (List.range n).map (fun k => Jo4At H solve B R xb y engine s0 time_obs gap M k) ∧
    (iter4 time_obs gap M H solve B R xb y engine s0 (n + 1)).cand =
      (engine (iter4 time_obs gap M H solve B R xb y engine s0 n).os
        (iter4 time_obs gap M H solve B R xb y engine s0 n).cand
        (Jb4At H solve B R xb y engine s0 time_obs gap M n +
          Jo4At H solve B R xb y engine s0 time_obs gap M n)).2.1 :=
  ⟨rfl,
    (iter4_spec H solve B R xb y engine s0 time_obs gap M n).1,
    (iter4_spec H solve B R xb y engine s0 time_obs gap M n).2.1,
    iter4_cand_succ H solve B R xb y engine s0 time_obs gap M n⟩

/-- C1 counterexample: with `time_obs = [0, 1]` (`L = 2`) and `gap = 2`,
a forward model that returns one scalar state per grid point (a 3×1
tensor, exactly one entry per point of the 3-point grid) yields only
`1` accumulated `Jo` misfit term in the iteration — not the claimed
`(L - 1) * gap = 2`: the per-segment term count is `xf.size(1)` (the
second-dimension size of the model output), not `gap`. -/
theorem c1_counterexample :
    (sweep4D (fun _ _ => ⟨[3, 1], [5, 6, 7]⟩) exH exSolve exI2 exI2 2
      ([0, 1].drop 1) 1 ([0, 1].getD 0 0) ⟨[1], [0]⟩).nTerms = 1 ∧
    (1 : ℕ) ≠ ([0, 1] : List ℚ).length.pred * 2 := by
  refine ⟨by decide, by decide⟩

/-- C1 (amended): per iteration, `apply_4DVar` calls `M` once per pair of
consecutive observation times, each time on the evenly spaced
`gap + 1`-point grid spanning the pair, and accumulates `Jo` misfit terms
from the trailing `s` states of each model output, where `s` is the
output's second-dimension size (`xf.size(1)`): with uniform `s` that is
`(L - 1) * s` terms per iteration — equal to the claimed `(L - 1) * gap`
exactly when `s = gap`. -/
theorem c1_amended (M : Tensor → List ℚ → Tensor) (H : List ℚ → List ℚ)
    (solve : Tensor → List ℚ → List ℚ) (R y : Tensor) (gap s : ℕ)
    (hM : ∀ x t, (M x t).size 1 = s) (l : List ℚ) (iobs : ℕ) (ct : ℚ) (x0 : Tensor) :
    (sweep4D M H solve R y gap l iobs ct x0).nTerms = l.length * s ∧
    (sweep4D M H solve R y gap l iobs ct x0).mInputs.length = l.length ∧
    (sweep4D M H solve R y gap l iobs ct x0).grids = specGrids gap ct l :=
  ⟨sweep4D_nTerms M H solve R y gap s hM l iobs ct x0,
    sweep4D_mInputs_length M H solve R y gap l iobs ct x0,
    sweep4D_grids M H solve R y gap l iobs ct x0⟩

/-- C1 witness: the amended count at a concrete instance (scalar state,
`s = 1`, two observation times, `gap = 2`): one misfit term, one `M` call,
one 3-point grid. -/
theorem c1_amended_witness :
    (∀ x t, ((fun (_ : Tensor) (_ : List ℚ) => (⟨[3, 1], [5, 6, 7]⟩ : Tensor)) x t).size 1
      = 1) ∧
    ((sweep4D (fun _ _ => ⟨[3, 1], [5, 6, 7]⟩) exH exSolve exI2 exI2 2
        ([0, 1].drop 1) 1 ([0, 1].getD 0 0) ⟨[1], [0]⟩).nTerms =
      ([0, 1] : List ℚ).tail.length * 1 ∧
    (sweep4D (fun _ _ => ⟨[3, 1], [5, 6, 7]⟩) exH exSolve exI2 exI2 2
        ([0, 1].drop 1) 1 ([0, 1].getD 0 0) ⟨[1], [0]⟩).mInputs.length =
      ([0, 1] : List ℚ).tail.length ∧
    (sweep4D (fun _ _ => ⟨[3, 1], [5, 6, 7]⟩) exH exSolve exI2 exI2 2
        ([0, 1].drop 1) 1 ([0, 1].getD 0 0) ⟨[1], [0]⟩).grids =
      specGrids 2 ([0, 1].getD 0 0) ([0, 1].drop 1)) := by
  refine ⟨fun _ _ => rfl, ?_⟩
  have h := c1_amended (fun _ _ => ⟨[3, 1], [5, 6, 7]⟩) exH exSolve exI2 exI2 2 1
    (fun _ _ => rfl) ([0, 1].drop 1) 1 ([0, 1].getD 0 0) ⟨[1], [0]⟩
  exact h

/-- C2 counterexample: with a forward model returning the 2×2 tensor
`A = [[1, 2], [3, 4]]` on every call (`xf.size(1) = 2`), the state handed
to `M` for the second segment is the whole trailing-2 slice `A` itself —
two propagated states — and not the last propagated state (`A[1]`,
equivalently the one-row slice `A[-1:]`). -/
theorem c2_counterexample :
    (sweep4D (fun _ _ => ⟨[2, 2], [1, 2, 3, 4]⟩) exH exSolve exI2 exI2 1
        ([0, 1, 2].drop 1) 1 ([0, 1, 2].getD 0 0) ⟨[2], [9, 9]⟩).mInputs[1]? =
      some ⟨[2, 2], [1, 2, 3, 4]⟩ ∧
    (⟨[2, 2], [1, 2, 3, 4]⟩ : Tensor) ≠
      (⟨[2, 2], [1, 2, 3, 4]⟩ : Tensor).index0 1 ∧
    (⟨[2, 2], [1, 2, 3, 4]⟩ : Tensor) ≠
      (⟨[2, 2], [1, 2, 3, 4]⟩ : Tensor).sliceLast 1 := by
  refine ⟨by decide, by decide, by decide⟩

/-- C2 (amended): the running state fed to `M` starts as the candidate
`new_x0`, and after each segment advances to `xf[-xf.size(1):]` — the
slice of the trailing `xf.size(1)` propagated states of that segment's
output `xf` (a single, the last, propagated state exactly when
`xf.size(1) = 1`). -/
theorem c2_amended (M : Tensor → List ℚ → Tensor) (H : List ℚ → List ℚ)
    (solve : Tensor → List ℚ → List ℚ) (R y : Tensor) (gap : ℕ)
    (l : List ℚ) (iobs : ℕ) (ct : ℚ) (x0 : Tensor) :
    (l ≠ [] → (sweep4D M H solve R y gap l iobs ct x0).mInputs[0]? = some x0) ∧
    (∀ k, k + 1 < l.length → ∀ (x : Tensor) (g : List ℚ),
      (sweep4D M H solve R y gap l iobs ct x0).mInputs[k]? = some x →
      (sweep4D M H solve R y gap l iobs ct x0).grids[k]? = some g →
      (sweep4D M H solve R y gap l iobs ct x0).mInputs[k + 1]? =
        some ((M x g).sliceLast ((M x g).size 1))) := by
  constructor
  · intro hl
    match l, hl with
    | t :: rest, _ => exact sweep4D_mInputs_zero M H solve R y gap t rest iobs ct x0
  · intro k hk x g hx hg
    exact sweep4D_chain M H solve R y gap l iobs ct x0 k hk x g hx hg

/-- C2 witness: the amended chaining at a concrete instance — the first
`M` input is the initial state, and the second is the trailing slice of
the first segment's output. -/
theorem c2_amended_witness :
    (sweep4D (fun _ _ => ⟨[2, 2], [1, 2, 3, 4]⟩) exH exSolve exI2 exI2 1
        ([0, 1, 2].drop 1) 1 ([0, 1, 2].getD 0 0) ⟨[2], [9, 9]⟩).mInputs[0]? =
      some ⟨[2], [9, 9]⟩ ∧
    (sweep4D (fun _ _ => ⟨[2, 2], [1, 2, 3, 4]⟩) exH exSolve exI2 exI2 1
        ([0, 1, 2].drop 1) 1 ([0, 1, 2].getD 0 0) ⟨[2], [9, 9]⟩).mInputs[0 + 1]? =
      some ((((fun (_ : Tensor) (_ : List ℚ) => (⟨[2, 2], [1, 2, 3, 4]⟩ : Tensor)))
          ⟨[2], [9, 9]⟩ (linspaceQ ([0, 1, 2].getD 0 0) 1 2)).sliceLast
        ((((fun (_ : Tensor) (_ : List ℚ) => (⟨[2, 2], [1, 2, 3, 4]⟩ : Tensor)))
          ⟨[2], [9, 9]⟩ (linspaceQ ([0, 1, 2].getD 0 0) 1 2)).size 1)) := by
  have h := c2_amended (fun _ _ => ⟨[2, 2], [1, 2, 3, 4]⟩) exH exSolve exI2 exI2 1
    ([0, 1, 2].drop 1) 1 ([0, 1, 2].getD 0 0) ⟨[2], [9, 9]⟩
  have h0 : (sweep4D (fun _ _ => ⟨[2, 2], [1, 2, 3, 4]⟩) exH exSolve exI2 exI2 1
      ([0, 1, 2].drop 1) 1 ([0, 1, 2].getD 0 0) ⟨[2], [9, 9]⟩).mInputs[0]? =
      some ⟨[2], [9, 9]⟩ := h.1 (by decide)
  have hg : (sweep4D (fun _ _ => ⟨[2, 2], [1, 2, 3, 4]⟩) exH exSolve exI2 exI2 1
      ([0, 1, 2].drop 1) 1 ([0, 1, 2].getD 0 0) ⟨[2], [9, 9]⟩).grids[0]? =
      some (linspaceQ ([0, 1, 2].getD 0 0) 1 2) := by
    rw [sweep4D_grids]
    rfl
  exact ⟨h0, h.2 0 (by decide) ⟨[2], [9, 9]⟩ (linspaceQ ([0, 1, 2].getD 0 0) 1 2) h0 hg⟩

theorem absQ_nonneg (q : ℚ) : 0 ≤ absQ q := by
  rw [absQ]
  split <;> linarith

theorem absQ_zero : absQ 0 = 0 := by norm_num [absQ]

theorem toRows_length (t : Tensor) : t.toRows.length = t.size 0 := by
  simp [Tensor.toRows]

theorem toRows_getD_getD (t : Tensor) (n : ℕ) (hs : t.shape = [n, n])
    (i j : ℕ) (hi : i < n) (hj : j < n) :
    (t.toRows.getD i []).getD j 0 = t.entry2 i j := by
  have hsize0 : t.size 0 = n := by simp [Tensor.size, hs]
  have hrow : t.rowNumel = n := by simp [Tensor.rowNumel, hs]
  have houter : t.toRows.getD i [] = (t.index0 i).data := by
    rw [Tensor.toRows, List.getD_eq_getElem?_getD, List.getElem?_map,
      List.getElem?_range (by rw [hsize0]; exact hi)]
    rfl
  rw [houter, Tensor.index0]
  show ((t.data.drop (i * t.rowNumel)).take t.rowNumel).getD j 0 = _
  rw [hrow, List.getD_eq_getElem?_getD, List.getElem?_take, if_pos hj,
    List.getElem?_drop, ← List.getD_eq_getElem?_getD]
  simp [Tensor.entry2, Tensor.size, hs]

theorem toRows_row_length (t : Tensor) (n : ℕ) (hs : t.shape = [n, n])
    (hwf : t.WF) : ∀ r ∈ t.toRows, r.length = n := by
  intro r hr
  rw [Tensor.toRows] at hr
  obtain ⟨i, hi, rfl⟩ := List.mem_map.mp hr
  have hi' : i < n := by simpa [Tensor.size, hs] using List.mem_range.mp hi
  have hrow : t.rowNumel = n := by simp [Tensor.rowNumel, hs]
  have hdata : t.data.length = n * n := by
    simpa [Tensor.WF, Tensor.numel, hs] using hwf
  rw [Tensor.index0]
  show ((t.data.drop (i * t.rowNumel)).take t.rowNumel).length = n
  rw [hrow]
  simp only [List.length_take, List.length_drop, hdata]
  have hle : (i + 1) * n ≤ n * n := Nat.mul_le_mul_right _ (by omega)
  rw [Nat.succ_mul] at hle
  omega

/-- On a square well-formed tensor, the executable singularity test used by
`check_covariance_matrix` computes exactly the determinant of the matrix
the tensor denotes. -/
theorem detL_toRows_eq (t : Tensor) (n : ℕ) (hs : t.shape = [n, n]) (hwf : t.WF) :
    detL t.toRows = (t.toMat n).det := by
  rw [detL_eq_det n t.toRows (by rw [toRows_length]; simp [Tensor.size, hs])
    (toRows_row_length t n hs hwf)]
  congr 1
  funext i j
  exact toRows_getD_getD t n hs (i : ℕ) (j : ℕ) i.isLt j.isLt

/-- A positive-definite rational matrix has nonzero determinant. -/
theorem posdef_det_ne_zero {n : ℕ} (M : Matrix (Fin n) (Fin n) ℚ)
    (h : M.PosDef) : M.det ≠ 0 := by
  intro hdet
  obtain ⟨v, hv, hMv⟩ := (Matrix.exists_mulVec_eq_zero_iff).mpr hdet
  have h2 := h.2 v hv
  rw [hMv] at h2
  simp at h2

/-- C6: `check_covariance_matrix` accepts every 2-D square matrix that is
symmetric within the `allclose` tolerance and has full rank (nonzero
determinant) — in particular every well-formed symmetric positive-definite
matrix — and raises the specific error message for a non-2D-square input,
a non-symmetric input, and a singular input respectively; the executable
singularity test agrees with the mathematical determinant. -/
theorem c6_check_covariance :
    (∀ (t : Tensor) (n : ℕ), t.shape = [n, n] → allcloseTransB t = true →
      detL t.toRows ≠ 0 → check_covariance_matrix t = .ok ()) ∧
    (∀ t : Tensor, t.ndim ≠ 2 ∨ t.size 0 ≠ t.size 1 →
      check_covariance_matrix t =
        .error "Covariance matrix should be a 2D square matrix.") ∧
    (∀ (t : Tensor) (n : ℕ), t.shape = [n, n] → allcloseTransB t = false →
      check_covariance_matrix t =
        .error "Covariance matrix should be a symmetric matrix.") ∧
    (∀ (t : Tensor) (n : ℕ), t.shape = [n, n] → allcloseTransB t = true →
      detL t.toRows = 0 →
      check_covariance_matrix t =
        .error "The input matrix is a singular matrix.") ∧
    (∀ (t : Tensor) (n : ℕ), t.shape = [n, n] → t.WF →
      detL t.toRows = (t.toMat n).det) ∧
    (∀ (t : Tensor) (n : ℕ), t.shape = [n, n] → t.WF → (t.toMat n).PosDef →
      check_covariance_matrix t = .ok ()) := by
  have hok : ∀ (t : Tensor) (n : ℕ), t.shape = [n, n] → allcloseTransB t = true →
      detL t.toRows ≠ 0 → check_covariance_matrix t = .ok () := by
    intro t n hs hclose hdet
    rw [check_covariance_matrix, if_neg (by simp [Tensor.ndim, Tensor.size, hs]),
      if_neg (by simp [hclose]), if_neg hdet]
  refine ⟨hok, ?_, ?_, ?_, fun t n hs hwf => detL_toRows_eq t n hs hwf, ?_⟩
  · intro t hbad
    rw [check_covariance_matrix, if_pos hbad]
  · intro t n hs hclose
    rw [check_covariance_matrix, if_neg (by simp [Tensor.ndim, Tensor.size, hs]),
      if_pos hclose]
  · intro t n hs hclose hdet
    rw [check_covariance_matrix, if_neg (by simp [Tensor.ndim, Tensor.size, hs]),
      if_neg (by simp [hclose]), if_pos hdet]
  · intro t n hs hwf hpd
    have hsym : ∀ i j : Fin n, t.entry2 (i : ℕ) (j : ℕ) = t.entry2 (j : ℕ) (i : ℕ) := by
      intro i j
      have happ := hpd.1.apply j i
      rw [star_trivial] at happ
      simpa [Tensor.toMat] using happ
    have hclose : allcloseTransB t = true := by
      rw [allcloseTransB, List.all_eq_true]
      intro i hi
      rw [List.all_eq_true]
      intro j hj
      rw [decide_eq_true_eq]
      have hi' : i < n := by simpa [Tensor.size, hs] using List.mem_range.mp hi
      have hj' : j < n := by simpa [Tensor.size, hs] using List.mem_range.mp hj
      rw [hsym ⟨i, hi'⟩ ⟨j, hj'⟩, sub_self, absQ_zero]
      have h1 : 0 ≤ rtol * absQ (t.entry2 j i) :=
        mul_nonneg (by norm_num [rtol]) (absQ_nonneg _)
      have h2 : (0 : ℚ) < atol := by norm_num [atol]
      linarith
    have hdet : detL t.toRows ≠ 0 := by
      rw [detL_toRows_eq t n hs hwf]
      exact posdef_det_ne_zero _ hpd
    exact hok t n hs hclose hdet

/-- C6 witness: the 2×2 identity passes the check; a 1-D tensor, an
asymmetric 2×2 matrix and the all-ones 2×2 matrix each fail with their
specific message. -/
theorem c6_check_covariance_witness :
    (exI2.shape = [2, 2] ∧ allcloseTransB exI2 = true ∧ detL exI2.toRows ≠ 0 ∧
      check_covariance_matrix exI2 = .ok ()) ∧
    check_covariance_matrix ⟨[3], [1, 1, 1]⟩ =
      .error "Covariance matrix should be a 2D square matrix." ∧
    check_covariance_matrix ⟨[2, 2], [1, 1, 0, 1]⟩ =
      .error "Covariance matrix should be a symmetric matrix." ∧
    check_covariance_matrix ⟨[2, 2], [1, 1, 1, 1]⟩ =
      .error "The input matrix is a singular matrix." := by
  have hclose : allcloseTransB exI2 = true := by
    norm_num [allcloseTransB, Tensor.entry2, Tensor.size, exI2, absQ, atol, rtol,
      List.range_succ]
  have hdet : detL exI2.toRows ≠ 0 := by
    norm_num [detL, detN, Tensor.toRows, Tensor.index0, Tensor.rowNumel, Tensor.size,
      exI2, List.range_succ]
  have hclose2 : allcloseTransB (⟨[2, 2], [1, 1, 0, 1]⟩ : Tensor) = false := by
    norm_num [allcloseTransB, Tensor.entry2, Tensor.size, absQ, atol, rtol,
      List.range_succ]
  have hclose3 : allcloseTransB (⟨[2, 2], [1, 1, 1, 1]⟩ : Tensor) = true := by
    norm_num [allcloseTransB, Tensor.entry2, Tensor.size, absQ, atol, rtol,
      List.range_succ]
  have hdet3 : detL (⟨[2, 2], [1, 1, 1, 1]⟩ : Tensor).toRows = 0 := by
    norm_num [detL, detN, Tensor.toRows, Tensor.index0, Tensor.rowNumel, Tensor.size,
      List.range_succ]
  exact ⟨⟨rfl, hclose, hdet, c6_check_covariance.1 exI2 2 rfl hclose hdet⟩,
    c6_check_covariance.2.1 ⟨[3], [1, 1, 1]⟩ (by decide),
    c6_check_covariance.2.2.1 ⟨[2, 2], [1, 1, 0, 1]⟩ 2 rfl hclose2,
    c6_check_covariance.2.2.2.1 ⟨[2, 2], [1, 1, 1, 1]⟩ 2 rfl hclose3 hdet3⟩

/-- C7 counterexample: storage-wise, with two iterations the run returns
reference 3 — the very cell recorded as the second (final) snapshot — so
writing 99 through the returned reference changes what that recorded
snapshot reads back (it was 7): mutating the returned final state does
change a recorded snapshot, namely the final iteration's one. -/
theorem c7_counterexample :
    aliasVar (0 : ℤ) 2 (fun v => v) 0 ⟨[7]⟩ =
      (some 3, [2, 3], 1, (⟨[7, 7, 7, 7]⟩ : Heap ℤ)) ∧
    ((⟨[7, 7, 7, 7]⟩ : Heap ℤ).write 3 99).read 0 3 = 99 ∧
    (⟨[7, 7, 7, 7]⟩ : Heap ℤ).read 0 3 = 7 ∧ (99 : ℤ) ≠ 7 := by
  refine ⟨by decide, by decide, by decide, by decide⟩

/-- C7 (amended): in the shared storage skeleton of `apply_3DVar` and
`apply_4DVar`, the candidate cell is freshly allocated (never `xb`'s cell);
every snapshot is a freshly allocated cell, distinct from the candidate,
from `xb` and from every other snapshot, so updating the candidate in
place never changes a recorded snapshot; the returned tensor is the very
cell recorded as the FINAL snapshot (they alias), and mutating it leaves
every snapshot of the earlier iterations unchanged — but not the final
one. -/
theorem c7_amended {α : Type} (d : α) (n : ℕ) (upd : α → α) (xbRef : ℕ)
    (h0 : Heap α) (hn : 1 ≤ n) (hxb : xbRef < h0.cells.length) :
    (aliasVar d n upd xbRef h0).2.2.1 ≠ xbRef ∧
    (aliasVar d n upd xbRef h0).2.1 =
      (List.range n).map (fun i => h0.cells.length + 1 + i) ∧
    (aliasVar d n upd xbRef h0).1 = some (h0.cells.length + n) ∧
    (aliasVar d n upd xbRef h0).1 = (aliasVar d n upd xbRef h0).2.1.getLast? ∧
    (∀ r' ∈ (aliasVar d n upd xbRef h0).2.1,
      r' ≠ (aliasVar d n upd xbRef h0).2.2.1 ∧ r' ≠ xbRef) ∧
    (aliasVar d n upd xbRef h0).2.1.Nodup ∧
    (∀ (v : α), ∀ r' ∈ (aliasVar d n upd xbRef h0).2.1,
      (((aliasVar d n upd xbRef h0).2.2.2).write
          ((aliasVar d n upd xbRef h0).2.2.1) v).read d r' =
        ((aliasVar d n upd xbRef h0).2.2.2).read d r') ∧
    (∀ (v : α), ∀ r' ∈ (aliasVar d n upd xbRef h0).2.1.dropLast,
      (((aliasVar d n upd xbRef h0).2.2.2).write (h0.cells.length + n) v).read d r' =
        ((aliasVar d n upd xbRef h0).2.2.2).read d r') := by
  obtain ⟨hs, hh, hl⟩ := aliasStep_iterate_spec d upd h0.cells.length
    ⟨h0.cells ++ [h0.read d xbRef]⟩ [] none n
  have hstart : (⟨h0.cells ++ [h0.read d xbRef]⟩ : Heap α).cells.length =
      h0.cells.length + 1 := by
    simp
  have hcand : (aliasVar d n upd xbRef h0).2.2.1 = h0.cells.length := rfl
  have hsnaps : (aliasVar d n upd xbRef h0).2.1 =
      (List.range n).map (fun i => h0.cells.length + 1 + i) := by
    show ((aliasStep d upd h0.cells.length)^[n]
      ⟨⟨h0.cells ++ [h0.read d xbRef]⟩, [], none⟩).snaps = _
    rw [hs, hstart]
    simp [Nat.add_assoc]
  have hmem : ∀ r' ∈ (aliasVar d n upd xbRef h0).2.1,
      ∃ i, i < n ∧ r' = h0.cells.length + 1 + i := by
    intro r' hr'
    rw [hsnaps] at hr'
    obtain ⟨i, hi, rfl⟩ := List.mem_map.mp hr'
    exact ⟨i, List.mem_range.mp hi, rfl⟩
  have hlatest : (aliasVar d n upd xbRef h0).1 = some (h0.cells.length + n) := by
    show ((aliasStep d upd h0.cells.length)^[n]
      ⟨⟨h0.cells ++ [h0.read d xbRef]⟩, [], none⟩).latest = _
    rw [hl, hstart, if_neg (by omega : ¬ (n = 0))]
    have harith : h0.cells.length + 1 + n - 1 = h0.cells.length + n := by omega
    rw [harith]
  have hlast : (aliasVar d n upd xbRef h0).1 =
      (aliasVar d n upd xbRef h0).2.1.getLast? := by
    rw [hlatest, hsnaps, List.getLast?_eq_getElem?]
    have hlen : ((List.range n).map fun i => h0.cells.length + 1 + i).length = n := by
      simp
    rw [hlen]
    have hn1 : n - 1 < n := by omega
    rw [List.getElem?_map, List.getElem?_range hn1]
    have harith2 : h0.cells.length + 1 + (n - 1) = h0.cells.length + n := by omega
    rw [Option.map_some', harith2]
  have hne2 : ∀ r' ∈ (aliasVar d n upd xbRef h0).2.1,
      r' ≠ (aliasVar d n upd xbRef h0).2.2.1 ∧ r' ≠ xbRef := by
    intro r' hr'
    obtain ⟨i, hi, rfl⟩ := hmem r' hr'
    rw [hcand]
    have h1 : h0.cells.length + 1 + i ≠ h0.cells.length := by omega
    have h2 : h0.cells.length + 1 + i ≠ xbRef := by omega
    exact ⟨h1, h2⟩
  have hdropLast : (aliasVar d n upd xbRef h0).2.1.dropLast =
      (List.range (n - 1)).map (fun i => h0.cells.length + 1 + i) := by
    rw [hsnaps]
    have hrange : List.range n = List.range (n - 1) ++ [n - 1] := by
      have := List.range_succ (n := n - 1)
      rw [← this]
      congr 1
      omega
    rw [hrange, List.map_append, List.map_singleton, List.dropLast_concat]
  have hcn : h0.cells.length ≠ xbRef := by omega
  refine ⟨by rw [hcand]; exact hcn, hsnaps, hlatest, hlast, hne2, ?_, ?_, ?_⟩
  · rw [hsnaps]
    exact List.Nodup.map (fun a b h => Nat.add_left_cancel h) (List.nodup_range n)
  · intro v r' hr'
    exact Heap.read_write_ne _ d _ r' v (hne2 r' hr').1
  · intro v r' hr'
    rw [hdropLast] at hr'
    obtain ⟨i, hi, rfl⟩ := List.mem_map.mp hr'
    have hi' : i < n - 1 := List.mem_range.mp hi
    exact Heap.read_write_ne _ d _ _ v (by omega)

/-- C7 witness: the amended storage facts at the concrete two-iteration
run — the candidate is not `xb`'s cell, and the returned reference is the
final snapshot's. -/
theorem c7_amended_witness :
    (aliasVar (0 : ℤ) 2 (fun v => v) 0 ⟨[7]⟩).2.2.1 ≠ 0 ∧
    (aliasVar (0 : ℤ) 2 (fun v => v) 0 ⟨[7]⟩).1 =
      (aliasVar (0 : ℤ) 2 (fun v => v) 0 ⟨[7]⟩).2.1.getLast? :=
  ⟨(c7_amended (0 : ℤ) 2 (fun v => v) 0 ⟨[7]⟩ (by decide) (by decide)).1,
    (c7_amended (0 : ℤ) 2 (fun v => v) 0 ⟨[7]⟩ (by decide) (by decide)).2.2.2.1⟩

end DeepDA
